import Mathlib

/-!
Verification of the OCI registry storage client (`storage/oci.go` of
PlakarKorp/integration-oci) against its natural-language specification.

Modelling conventions:
* Go strings are modelled as `List Char` (`Str`); Go byte slices as `List Nat`
  (each entry a byte value).
* The HTTP layer is modelled as an explicit handler `σ → Req → Resp × σ`
  threaded through every operation; `σ` is the state of the remote registry
  (or a request trace when only the emitted requests matter).
* Go's `net/http` header lookup returns the empty string for an absent
  header, so response headers are plain `Str` with `[]` meaning "absent".
* `encoding/json` is modelled at its interface: a manifest request body
  carries the manifest value itself, and a manifest response body carries
  `Option ociManifest` (`none` = the body does not decode).
* The SHA-256 digest is modelled as an explicit parameter
  `dig : List Nat → Str` standing for the lowercase hex digest of a byte
  sequence; the code computes `"sha256:" ++ dig bytes` exactly as the source
  computes `"sha256:" + hex(sha256(bytes))`.
* `net/url` (`Parse`, `ResolveReference`, `QueryEscape`) is modelled at its
  interface for the URL shapes this client produces; parsing never fails in
  the model (Go's `url.Parse` fails only on control characters, which the
  client never generates).
-/

set_option maxRecDepth 4000

/-- Go strings, modelled as lists of characters. -/
abbrev Str := List Char

/-- Character list of a string literal. -/
def str (s : String) : Str := s.data

/-- Model of `strings.HasPrefix`, structured so that it reduces
definitionally when the pattern is a literal. -/
def strStartsWith (pre s : Str) : Bool :=
  match pre with
  | [] => true
  | p :: ps =>
    match s with
    | [] => false
    | c :: cs => p == c && strStartsWith ps cs

/-- Model of `strings.TrimPrefix`. -/
def trimPrefixStr (s pre : Str) : Str :=
  if strStartsWith pre s then s.drop pre.length else s

/-- Model of `strings.TrimRight` with a one-character cutset. -/
def trimCharRight (s : Str) (c : Char) : Str :=
  (s.reverse.dropWhile (fun x => x == c)).reverse

/-- Model of `strings.Trim` with a one-character cutset. -/
def trimChar (s : Str) (c : Char) : Str :=
  trimCharRight (s.dropWhile (fun x => x == c)) c

/-- Lowercase hex digit for a value below 16 (as produced by `fmt %x`). -/
def hexDigitL (n : Nat) : Char :=
  if n < 10 then Char.ofNat (48 + n) else Char.ofNat (87 + n)

/-- Model of `fmt.Sprintf("%x", ...)` on a byte array: two lowercase hex
digits per byte. -/
def hexOfBytes (bs : List Nat) : Str :=
  bs.foldr (fun b acc => hexDigitL (b / 16 % 16) :: hexDigitL (b % 16) :: acc) []

/-- Value of one hex digit, accepting both cases (as `encoding/hex` does). -/
def hexVal (c : Char) : Option Nat :=
  if '0' ≤ c ∧ c ≤ '9' then some (c.toNat - 48)
  else if 'a' ≤ c ∧ c ≤ 'f' then some (c.toNat - 97 + 10)
  else if 'A' ≤ c ∧ c ≤ 'F' then some (c.toNat - 65 + 10)
  else none

/-- Model of `hex.DecodeString`: fails on odd length or a non-hex digit. -/
def hexDecode : Str → Option (List Nat)
  | [] => some []
  | [_] => none
  | a :: b :: rest =>
    match hexVal a, hexVal b, hexDecode rest with
    | some x, some y, some bs => some ((x * 16 + y) :: bs)
    | _, _, _ => none

/-- Decimal rendering of a natural number (`fmt %d` on unsigned values). -/
def natStr (n : Nat) : Str := (Nat.repr n).data

/-- Value of a nonempty decimal digit string. -/
def digitsVal (ds : Str) : Nat := ds.foldl (fun a c => a * 10 + (c.toNat - 48)) 0

/-- Model of `fmt.Sscanf(s, "%d", &v)`: optional spaces and sign, then a
digit run; `none` when no digit is found (in which case Go leaves the
destination untouched). -/
def scanInt (s : Str) : Option Int :=
  let s1 := s.dropWhile (fun c => c == ' ')
  match s1 with
  | '-' :: rest =>
    let ds := rest.takeWhile Char.isDigit
    if ds.isEmpty then none else some (-(digitsVal ds : Int))
  | '+' :: rest =>
    let ds := rest.takeWhile Char.isDigit
    if ds.isEmpty then none else some (digitsVal ds : Int)
  | _ =>
    let ds := s1.takeWhile Char.isDigit
    if ds.isEmpty then none else some (digitsVal ds : Int)

/-- Uppercase hex digit, used by percent-encoding. -/
def hexDigitU (n : Nat) : Char :=
  if n < 10 then Char.ofNat (48 + n) else Char.ofNat (55 + n)

/-- Characters `url.QueryEscape` leaves unescaped. -/
def isUnreservedQuery (c : Char) : Bool :=
  ('A' ≤ c && c ≤ 'Z') || ('a' ≤ c && c ≤ 'z') || ('0' ≤ c && c ≤ '9') ||
  c == '-' || c == '_' || c == '.' || c == '~'

/-- Model of `url.QueryEscape` (on ASCII input, which is all the client
escapes): unreserved characters kept, space to plus, the rest
percent-encoded. -/
def queryEscape (s : Str) : Str :=
  s.foldr
    (fun c acc =>
      if isUnreservedQuery c then c :: acc
      else if c == ' ' then '+' :: acc
      else '%' :: hexDigitU (c.toNat / 16 % 16) :: hexDigitU (c.toNat % 16) :: acc)
    []

/-- Parsed URL: scheme, authority, path, query (the shapes used here). -/
structure URLModel where
  scheme : Str
  host : Str
  path : Str
  query : Str
deriving DecidableEq, Repr

/-- Model of `url.Parse` for the URL shapes this client handles: either
`scheme://host[path][?query]` or a scheme-less `path[?query]` reference. -/
def parseURL (s : Str) : URLModel :=
  let sch := s.takeWhile (fun c => c != ':')
  if strStartsWith (str "://") (s.drop sch.length) then
    let rest := s.drop (sch.length + 3)
    let host := rest.takeWhile (fun c => c != '/' && c != '?')
    let pq := rest.drop host.length
    let path := pq.takeWhile (fun c => c != '?')
    let query := (pq.drop path.length).drop 1
    ⟨sch, host, path, query⟩
  else
    let path := s.takeWhile (fun c => c != '?')
    let query := (s.drop path.length).drop 1
    ⟨[], [], path, query⟩

/-- Model of `URL.String` for the parsed shapes above. -/
def urlToString (u : URLModel) : Str :=
  (if u.scheme.isEmpty then [] else u.scheme ++ str ":") ++
  (if u.host.isEmpty then [] else str "//" ++ u.host) ++
  u.path ++
  (if u.query.isEmpty then [] else str "?" ++ u.query)

/-- Dot-segment removal used by `net/url` path resolution. -/
def cleanSegsLoop (acc : List Str) : List Str → List Str
  | [] => acc.reverse
  | s :: rest =>
    if s = str "." then cleanSegsLoop acc rest
    else if s = str ".." then cleanSegsLoop (acc.drop 1) rest
    else cleanSegsLoop (s :: acc) rest

/-- Model of `net/url`'s `resolvePath`: RFC 3986 merge plus dot-segment
removal. -/
def resolvePath (base ref : Str) : Str :=
  let full :=
    if ref.isEmpty then base
    else if strStartsWith (str "/") ref then ref
    else (base.reverse.dropWhile (fun c => c != '/')).reverse ++ ref
  if full.isEmpty then []
  else
    let joined := List.intercalate (str "/") (cleanSegsLoop [] (full.splitOn '/'))
    if strStartsWith (str "/") joined then joined else '/' :: joined

/-- Model of `URL.ResolveReference`: an absolute reference wins; a
network-path reference takes the base scheme; an empty reference keeps the
base; otherwise merge paths against the base origin. -/
def resolveReference (base ref : URLModel) : URLModel :=
  if ¬ ref.scheme.isEmpty then
    { ref with path := resolvePath ref.path [] }
  else if ¬ ref.host.isEmpty then
    { scheme := base.scheme, host := ref.host,
      path := resolvePath ref.path [], query := ref.query }
  else if ref.path.isEmpty ∧ ref.query.isEmpty then
    base
  else
    { scheme := base.scheme, host := base.host,
      path := resolvePath base.path ref.path, query := ref.query }

/-- OCI descriptor (`descriptor` in the source): media type, digest, size. -/
structure descriptor where
  MediaType : Str
  Digest : Str
  Size : Int
deriving DecidableEq, Repr

/-- OCI image manifest (`ociManifest` in the source). -/
structure ociManifest where
  SchemaVersion : Nat
  MediaType : Str
  Config : descriptor
  Layers : List descriptor
deriving DecidableEq, Repr

/-- Decoded body of `/tags/list` (`tagsList` in the source). -/
structure tagsList where
  Name : Str
  Tags : List Str
deriving DecidableEq, Repr

/-- The fixed HTTP client settings installed by `New`. -/
structure ClientConfig where
  insecureSkipVerify : Bool
  timeout : Nat
deriving DecidableEq, Repr

/-- The store handle (`ociStore` in the source). -/
structure ociStore where
  base : Str
  repo : Str
  client : ClientConfig
deriving DecidableEq, Repr

/-- Resource categories passed to the store operations.  The source
switches on the three supported constants; `other` stands for any further
`storage.StorageResource` value, all of which hit the `default` branch. -/
inductive StorageResource where
  | packfile
  | state
  | lock
  | other (n : Nat)
deriving DecidableEq, Repr

/-- A byte-range request (`storage.Range`): offset and length, both held in
unsigned machine words by the caller. -/
structure RangeReq where
  offset : Nat
  length : Nat
deriving DecidableEq, Repr

/-- Errors surfaced by the store: `errors.ErrUnsupported` or a formatted
error message (the model keeps the fixed part of the format string). -/
inductive Err where
  | unsupported
  | msg (s : Str)
deriving DecidableEq, Repr

/-- Request bodies the client sends: none, raw bytes, or a JSON-encoded
manifest (modelled structurally, see header comment). -/
inductive Body where
  | empty
  | bytes (b : List Nat)
  | manifest (m : ociManifest)
deriving DecidableEq, Repr

/-- One HTTP request as issued by `ociStore.do`. -/
structure Req where
  method : Str
  url : Str
  body : Body
  headers : List (Str × Str)
deriving DecidableEq, Repr

/-- One HTTP response as observed by the client.  Header fields are `[]`
when absent (Go's `Header.Get` convention); bodies are modelled per
content kind. -/
structure Resp where
  status : Nat
  location : Str
  range : Str
  dcd : Str
  bodyBytes : List Nat
  bodyManifest : Option ociManifest
  bodyTags : Option tagsList
deriving DecidableEq, Repr

/-- Response with the given status and nothing else. -/
def mkResp (status : Nat) : Resp := ⟨status, [], [], [], [], none, none⟩

/-- The remote side: a state transformer answering one request. -/
def Handler (σ : Type) := σ → Req → Resp × σ

/-- Stateless handler from a fixed response function. -/
def pureHandler (respond : Req → Resp) : Handler Unit :=
  fun u r => (respond r, u)

/-- Handler that records every request it receives (used to observe which
network calls an operation performs). -/
def recHandler (respond : Req → Resp) : Handler (List Req) :=
  fun tr r => (respond r, tr ++ [r])

/-- The 2xx test in `ociStore.do`. -/
def is2xx (n : Nat) : Bool := 200 ≤ n && n < 300

/-- Model of `ociStore.do`: issue the request; a 2xx response is returned
to the caller, anything else becomes a formatted `oci METHOD URL ...`
error (the model keeps the method and URL of the message). -/
def doCall {σ : Type} (H : Handler σ) (st : σ) (method url : Str)
    (body : Body) (headers : List (Str × Str)) : Except Err Resp × σ :=
  let rs := H st ⟨method, url, body, headers⟩
  if is2xx rs.1.status then (.ok rs.1, rs.2)
  else (.error (.msg (str "oci " ++ method ++ str " " ++ url)), rs.2)

/-- `ociStore.baseURL`. -/
def baseURL (s : ociStore) (p : Str) : Str := s.base ++ str "/v2/" ++ p

/-- `ociStore.doRepo` / `doRepoRC` (they differ only in which parts of the
result the Go caller keeps). -/
def doRepo {σ : Type} (s : ociStore) (H : Handler σ) (st : σ)
    (method p : Str) (body : Body) (headers : List (Str × Str)) :
    Except Err Resp × σ :=
  doCall H st method (baseURL s (s.repo ++ p)) body headers

/-- The dual `Accept` value sent for manifest requests. -/
def acceptManifests : Str :=
  str "application/vnd.oci.image.manifest.v1+json, application/vnd.docker.distribution.manifest.v2+json"

/-- `ociStore.parseUploadedSize`: recover a transferred-size hint from a
`Range` response header of the form `start-end`. -/
def parseUploadedSize (rng : Str) : Int :=
  if rng = [] then 0
  else
    let parts := rng.splitOn '-'
    if parts.length ≠ 2 then 0
    else
      let last := (scanInt ((parts.get? 1).getD [])).getD 0
      last + 1

/-- `ociStore.resolveLocation`: resolve an upload `Location` against the
store origin. -/
def resolveLocation (s : ociStore) (loc : Str) : Str :=
  let base := parseURL (trimCharRight s.base '/')
  let ref := parseURL loc
  urlToString (resolveReference base ref)

/-- `ociStore.headManifestDigest`: HEAD the manifest and read
`Docker-Content-Digest`. -/
def headManifestDigest {σ : Type} (s : ociStore) (H : Handler σ) (st : σ)
    (ref : Str) : Except Err Str × σ :=
  match doRepo s H st (str "HEAD") (str "/manifests/" ++ ref) .empty
      [(str "Accept", acceptManifests)] with
  | (.error e, st1) => (.error e, st1)
  | (.ok resp, st1) =>
    if resp.dcd = [] then
      (.error (.msg (str "missing Docker-Content-Digest header on HEAD manifest")), st1)
    else (.ok resp.dcd, st1)

/-- The ASCII bytes of the fixed two-byte JSON config body uploaded by
`putByTag` (left brace, right brace). -/
def cfgBytes : List Nat := [123, 125]

/-- `ociStore.uploadBlob`: POST to open an upload session, PATCH the
payload while hashing it, then PUT `digest=<...>` at the latest session
location.  `dig` is the hex SHA-256 (see header comment). -/
def uploadBlob {σ : Type} (dig : List Nat → Str) (s : ociStore)
    (H : Handler σ) (st : σ) (rd : List Nat) :
    Except Err (Str × Int) × σ :=
  match doRepo s H st (str "POST") (str "/blobs/uploads/") .empty [] with
  | (.error e, st1) => (.error e, st1)
  | (.ok resp, st1) =>
    if resp.location = [] then
      (.error (.msg (str "registry missing Location on upload start")), st1)
    else
      let uploadURL := resolveLocation s resp.location
      match doCall H st1 (str "PATCH") uploadURL (.bytes rd)
          [(str "Content-Type", str "application/octet-stream")] with
      | (.error e, st2) => (.error e, st2)
      | (.ok resp2, st2) =>
        let uploadURL2 :=
          if resp2.location ≠ [] then resolveLocation s resp2.location
          else uploadURL
        let size := parseUploadedSize resp2.range
        let digest := str "sha256:" ++ dig rd
        let finalURL :=
          if uploadURL2.contains '?' then
            uploadURL2 ++ str "&digest=" ++ queryEscape digest
          else
            uploadURL2 ++ str "?digest=" ++ queryEscape digest
        match doCall H st2 (str "PUT") finalURL .empty [] with
        | (.error e, st3) => (.error e, st3)
        | (.ok _, st3) => (.ok (digest, size), st3)

/-- `ociStore.putByTag`: upload the payload and the two-byte config blob,
then PUT a manifest binding the tag to the payload layer. -/
def putByTag {σ : Type} (dig : List Nat → Str) (s : ociStore)
    (H : Handler σ) (st : σ) (tag : Str) (rd : List Nat) :
    Except Err Int × σ :=
  match uploadBlob dig s H st rd with
  | (.error e, st1) => (.error e, st1)
  | (.ok (payloadDigest, size), st1) =>
    match uploadBlob dig s H st1 cfgBytes with
    | (.error e, st2) => (.error e, st2)
    | (.ok (cfgDigest, _), st2) =>
      let man : ociManifest :=
        { SchemaVersion := 2
          MediaType := str "application/vnd.oci.image.manifest.v1+json"
          Config :=
            { MediaType := str "application/vnd.oci.image.config.v1+json"
              Digest := cfgDigest
              Size := (cfgBytes.length : Int) }
          Layers :=
            [{ MediaType := str "application/octet-stream"
               Digest := payloadDigest
               Size := size }] }
      match doRepo s H st2 (str "PUT") (str "/manifests/" ++ tag)
          (.manifest man)
          [(str "Content-Type", str "application/vnd.oci.image.manifest.v1+json")] with
      | (.error e, st3) => (.error e, st3)
      | (.ok _, st3) => (.ok size, st3)

/-- `ociStore.getByTag`: GET the manifest by tag, extract the first layer
digest, then GET the blob forwarding the caller's extra headers. -/
def getByTag {σ : Type} (s : ociStore) (H : Handler σ) (st : σ)
    (tag : Str) (extraHeaders : List (Str × Str)) :
    Except Err (List Nat) × σ :=
  match doRepo s H st (str "GET") (str "/manifests/" ++ tag) .empty
      [(str "Accept", acceptManifests)] with
  | (.error e, st1) => (.error e, st1)
  | (.ok resp, st1) =>
    match resp.bodyManifest with
    | none => (.error (.msg (str "decode manifest")), st1)
    | some man =>
      match man.Layers with
      | [] => (.error (.msg (str "manifest has no layers")), st1)
      | layer :: _ =>
        if layer.Digest = [] then
          (.error (.msg (str "manifest layer digest missing")), st1)
        else
          match doCall H st1 (str "GET")
              (baseURL s (s.repo ++ str "/blobs/" ++ layer.Digest)) .empty
              extraHeaders with
          | (.error e, st2) => (.error e, st2)
          | (.ok resp2, st2) => (.ok resp2.bodyBytes, st2)

/-- `ociStore.deleteByTag`: resolve the tag to a digest via HEAD, then
DELETE the manifest by digest. -/
def deleteByTag {σ : Type} (s : ociStore) (H : Handler σ) (st : σ)
    (tag : Str) : Except Err Unit × σ :=
  match headManifestDigest s H st tag with
  | (.error e, st1) => (.error e, st1)
  | (.ok digest, st1) =>
    match doRepo s H st1 (str "DELETE") (str "/manifests/" ++ digest)
        .empty [] with
    | (.error e, st2) => (.error e, st2)
    | (.ok _, st2) => (.ok () , st2)

/-- The tag-filtering loop of `listByPrefix`: keep tags that carry the
category marker and whose remainder hex-decodes to exactly 32 bytes. -/
def extractMACs (pfx : Str) : List Str → List (List Nat)
  | [] => []
  | t :: ts =>
    if strStartsWith pfx t then
      match hexDecode (trimPrefixStr t pfx) with
      | some b => if b.length = 32 then b :: extractMACs pfx ts else extractMACs pfx ts
      | none => extractMACs pfx ts
    else extractMACs pfx ts

/-- `ociStore.listByPrefix`: GET `/tags/list`, decode it, and filter. -/
def listByPfx {σ : Type} (s : ociStore) (H : Handler σ) (st : σ)
    (pfx : Str) : Except Err (List (List Nat)) × σ :=
  match doRepo s H st (str "GET") (str "/tags/list") .empty [] with
  | (.error e, st1) => (.error e, st1)
  | (.ok resp, st1) =>
    match resp.bodyTags with
    | none => (.error (.msg (str "decode tags list")), st1)
    | some tl => (.ok (extractMACs pfx tl.Tags), st1)

/-- `New`: parse the `location` entry of the configuration map, split it
into origin and repository, and build the store handle with the fixed
transport policy (TLS verification disabled, no timeout). -/
def New (config : List (Str × Str)) : Except Err ociStore :=
  let loc := trimPrefixStr ((config.lookup (str "location")).getD []) (str "oci://")
  let u := parseURL (str "http://" ++ loc)
  let repo := trimChar u.path '/'
  if repo = [] then .error (.msg (str "need a repo"))
  else
    let u2 := { u with path := [] }
    let base := trimCharRight (urlToString u2) '/'
    .ok { base := base, repo := repo,
          client := { insecureSkipVerify := true, timeout := 0 } }

/-- 2^64: the modulus of Go's `uint64` arithmetic. -/
def U64 : Nat := 18446744073709551616

/-- The end bound `rg.Offset + uint64(rg.Length) - 1` computed by `Get`,
in wrapping unsigned 64-bit arithmetic. -/
def u64end (o l : Nat) : Nat := (o % U64 + l % U64 + (U64 - 1)) % U64

/-- The extra headers `Get` builds for a range request. -/
def rangeHeaders (rg : Option RangeReq) : List (Str × Str) :=
  match rg with
  | none => []
  | some r =>
    [(str "Range",
      str "bytes=" ++ natStr (r.offset % U64) ++ str "-" ++ natStr (u64end r.offset r.length))]

/-- `ociStore.Put`: map the category to its tag marker and write via
`putByTag`; unknown categories fail with `errors.ErrUnsupported`. -/
def Put {σ : Type} (dig : List Nat → Str) (s : ociStore) (H : Handler σ)
    (st : σ) (res : StorageResource) (mac : List Nat) (rd : List Nat) :
    Except Err Int × σ :=
  match res with
  | .packfile => putByTag dig s H st (str "packfiles-" ++ hexOfBytes mac) rd
  | .state => putByTag dig s H st (str "state-" ++ hexOfBytes mac) rd
  | .lock => putByTag dig s H st (str "locks-" ++ hexOfBytes mac) rd
  | .other _ => (.error .unsupported, st)

/-- `ociStore.Get`: map the category, build the optional `Range` header,
and read via `getByTag`. -/
def Get {σ : Type} (s : ociStore) (H : Handler σ) (st : σ)
    (res : StorageResource) (mac : List Nat) (rg : Option RangeReq) :
    Except Err (List Nat) × σ :=
  match res with
  | .packfile => getByTag s H st (str "packfiles-" ++ hexOfBytes mac) (rangeHeaders rg)
  | .state => getByTag s H st (str "state-" ++ hexOfBytes mac) (rangeHeaders rg)
  | .lock => getByTag s H st (str "locks-" ++ hexOfBytes mac) (rangeHeaders rg)
  | .other _ => (.error .unsupported, st)

/-- `ociStore.Delete`. -/
def Delete {σ : Type} (s : ociStore) (H : Handler σ) (st : σ)
    (res : StorageResource) (mac : List Nat) : Except Err Unit × σ :=
  match res with
  | .packfile => deleteByTag s H st (str "packfiles-" ++ hexOfBytes mac)
  | .state => deleteByTag s H st (str "state-" ++ hexOfBytes mac)
  | .lock => deleteByTag s H st (str "locks-" ++ hexOfBytes mac)
  | .other _ => (.error .unsupported, st)

/-- `ociStore.List` (named `ListOp` here because `List` is taken). -/
def ListOp {σ : Type} (s : ociStore) (H : Handler σ) (st : σ)
    (res : StorageResource) : Except Err (List (List Nat)) × σ :=
  match res with
  | .packfile => listByPfx s H st (str "packfiles-")
  | .state => listByPfx s H st (str "state-")
  | .lock => listByPfx s H st (str "locks-")
  | .other _ => (.error .unsupported, st)

/-- Whether a category is one of the three the source supports. -/
def supportedRes : StorageResource → Bool
  | .other _ => false
  | _ => true

/-- State of a faithful registry: an upload-session counter, the open
upload sessions (keyed by their full session URL), the stored blobs
(keyed by digest), and the stored manifests (keyed by tag). -/
structure Registry where
  ctr : Nat
  sessions : List (Str × List Nat)
  blobs : List (Str × List Nat)
  manifests : List (Str × ociManifest)
deriving DecidableEq, Repr

/-- The registry with nothing stored. -/
def Registry.empty : Registry := ⟨0, [], [], []⟩

/-- Replace the value stored under a key in an association list. -/
def updAssoc (k : Str) (v : List Nat) :
    List (Str × List Nat) → List (Str × List Nat)
  | [] => []
  | (k', v') :: rest =>
    if k' = k then (k', v) :: rest else (k', v') :: updAssoc k v rest

/-- Remove the entry stored under a key in an association list. -/
def delAssoc (k : Str) :
    List (Str × List Nat) → List (Str × List Nat)
  | [] => []
  | (k', v') :: rest =>
    if k' = k then rest else (k', v') :: delAssoc k rest

/-- A registry that faithfully implements the distribution endpoints the
client uses: POST opens an upload session and answers with its location;
PATCH appends bytes to the addressed session; PUT at a session location
(with any query string) closes the session and stores its bytes under the
digest of their content; PUT/GET under `/manifests/` store and serve
manifests by tag; GET under `/blobs/` serves blobs by digest. -/
def faithfulHandler (dig : List Nat → Str) (base repo : Str) :
    Handler Registry := fun R req =>
  let upInitURL := base ++ str "/v2/" ++ repo ++ str "/blobs/uploads/"
  let manPre := base ++ str "/v2/" ++ repo ++ str "/manifests/"
  let blobPre := base ++ str "/v2/" ++ repo ++ str "/blobs/"
  if req.method = str "POST" then
    if req.url = upInitURL then
      let loc := str "/v2/" ++ repo ++ str "/blobs/uploads/s" ++ List.replicate R.ctr 'i'
      ({ mkResp 202 with location := loc },
       { R with ctr := R.ctr + 1, sessions := (base ++ loc, []) :: R.sessions })
    else (mkResp 404, R)
  else if req.method = str "PATCH" then
    match R.sessions.lookup req.url with
    | some acc =>
      let bs := match req.body with | .bytes b => b | _ => []
      (mkResp 202, { R with sessions := updAssoc req.url (acc ++ bs) R.sessions })
    | none => (mkResp 404, R)
  else if req.method = str "PUT" then
    match R.sessions.find? (fun kv => strStartsWith (kv.1 ++ str "?") req.url) with
    | some kv =>
      (mkResp 201,
       { R with sessions := delAssoc kv.1 R.sessions,
                blobs := (str "sha256:" ++ dig kv.2, kv.2) :: R.blobs })
    | none =>
      if strStartsWith manPre req.url then
        match req.body with
        | .manifest m =>
          (mkResp 201,
           { R with manifests := (req.url.drop manPre.length, m) :: R.manifests })
        | _ => (mkResp 400, R)
      else (mkResp 404, R)
  else if req.method = str "GET" then
    if strStartsWith manPre req.url then
      match R.manifests.lookup (req.url.drop manPre.length) with
      | some m => ({ mkResp 200 with bodyManifest := some m }, R)
      | none => (mkResp 404, R)
    else if strStartsWith blobPre req.url then
      match R.blobs.lookup (req.url.drop blobPre.length) with
      | some bs => ({ mkResp 200 with bodyBytes := bs }, R)
      | none => (mkResp 404, R)
    else (mkResp 404, R)
  else (mkResp 404, R)

/-- The concrete store used to state the round-trip claim. -/
def demoBase : Str := str "http://localhost:5000"

/-- The repository path of the concrete round-trip store. -/
def demoRepo : Str := str "demo"

/-- A store handle as `New` would produce it for
`oci://localhost:5000/demo`. -/
def demoStore : ociStore :=
  { base := demoBase, repo := demoRepo,
    client := { insecureSkipVerify := true, timeout := 0 } }

/-- A concrete injective stand-in for the hex SHA-256 function, used by the
witnesses: the hex dump of the bytes themselves. -/
def hexDig : List Nat → Str := hexOfBytes

/-- The faithful-registry handler for the concrete round-trip store. -/
def demoHandler (dig : List Nat → Str) : Handler Registry :=
  faithfulHandler dig demoBase demoRepo

/-- Session URL opened by the first upload of a `putByTag` run. -/
def sessURL0 : Str := str "http://localhost:5000/v2/demo/blobs/uploads/s"

/-- Session URL opened by the second upload of a `putByTag` run. -/
def sessURL1 : Str := str "http://localhost:5000/v2/demo/blobs/uploads/si"

/-- The manifest `putByTag` writes for payload `B` against the faithful
registry (layer size 0 because the model registry sends no `Range`). -/
def manFor (dig : List Nat → Str) (B : List Nat) : ociManifest :=
  { SchemaVersion := 2
    MediaType := str "application/vnd.oci.image.manifest.v1+json"
    Config :=
      { MediaType := str "application/vnd.oci.image.config.v1+json"
        Digest := str "sha256:" ++ dig cfgBytes
        Size := (cfgBytes.length : Int) }
    Layers :=
      [{ MediaType := str "application/octet-stream"
         Digest := str "sha256:" ++ dig B
         Size := 0 }] }

/-- Registry state after `putByTag tag B` against the empty faithful
registry. -/
def regFinal (dig : List Nat → Str) (tag : Str) (B : List Nat) : Registry :=
  ⟨2, [],
   [(str "sha256:" ++ dig cfgBytes, cfgBytes), (str "sha256:" ++ dig B, B)],
   [(tag, manFor dig B)]⟩

theorem append_ne_nil_left {a : Str} (b : Str) (h : a ≠ []) : a ++ b ≠ [] := by
  intro hx
  exact h (List.append_eq_nil.mp hx).1

theorem demo_post0 (dig : List Nat → Str) (bl : List (Str × List Nat))
    (mn : List (Str × ociManifest)) :
    doRepo demoStore (demoHandler dig) ⟨0, [], bl, mn⟩ (str "POST")
      (str "/blobs/uploads/") .empty []
      = (.ok { mkResp 202 with location := str "/v2/demo/blobs/uploads/s" },
         ⟨1, [(sessURL0, [])], bl, mn⟩) := by
  rfl

theorem demo_patch0 (dig : List Nat → Str) (B : List Nat)
    (bl : List (Str × List Nat)) (mn : List (Str × ociManifest)) :
    doCall (demoHandler dig) ⟨1, [(sessURL0, [])], bl, mn⟩ (str "PATCH") sessURL0
      (.bytes B) [(str "Content-Type", str "application/octet-stream")]
      = (.ok (mkResp 202), ⟨1, [(sessURL0, B)], bl, mn⟩) := by
  rfl

theorem demo_fin0 (dig : List Nat → Str) (B : List Nat)
    (bl : List (Str × List Nat)) (mn : List (Str × ociManifest)) :
    doCall (demoHandler dig) ⟨1, [(sessURL0, B)], bl, mn⟩ (str "PUT")
      (sessURL0 ++ str "?digest=" ++ queryEscape (str "sha256:" ++ dig B)) .empty []
      = (.ok (mkResp 201), ⟨1, [], (str "sha256:" ++ dig B, B) :: bl, mn⟩) := by
  rfl

theorem demo_post1 (dig : List Nat → Str) (bl : List (Str × List Nat))
    (mn : List (Str × ociManifest)) :
    doRepo demoStore (demoHandler dig) ⟨1, [], bl, mn⟩ (str "POST")
      (str "/blobs/uploads/") .empty []
      = (.ok { mkResp 202 with location := str "/v2/demo/blobs/uploads/si" },
         ⟨2, [(sessURL1, [])], bl, mn⟩) := by
  rfl

theorem demo_patch1 (dig : List Nat → Str) (B : List Nat)
    (bl : List (Str × List Nat)) (mn : List (Str × ociManifest)) :
    doCall (demoHandler dig) ⟨2, [(sessURL1, [])], bl, mn⟩ (str "PATCH") sessURL1
      (.bytes B) [(str "Content-Type", str "application/octet-stream")]
      = (.ok (mkResp 202), ⟨2, [(sessURL1, B)], bl, mn⟩) := by
  rfl

theorem demo_fin1 (dig : List Nat → Str) (B : List Nat)
    (bl : List (Str × List Nat)) (mn : List (Str × ociManifest)) :
    doCall (demoHandler dig) ⟨2, [(sessURL1, B)], bl, mn⟩ (str "PUT")
      (sessURL1 ++ str "?digest=" ++ queryEscape (str "sha256:" ++ dig B)) .empty []
      = (.ok (mkResp 201), ⟨2, [], (str "sha256:" ++ dig B, B) :: bl, mn⟩) := by
  rfl

theorem uploadBlob_demo_first (dig : List Nat → Str) (B : List Nat)
    (bl : List (Str × List Nat)) (mn : List (Str × ociManifest)) :
    uploadBlob dig demoStore (demoHandler dig) ⟨0, [], bl, mn⟩ B
      = (.ok (str "sha256:" ++ dig B, 0),
         ⟨1, [], (str "sha256:" ++ dig B, B) :: bl, mn⟩) := by
  unfold uploadBlob
  rw [demo_post0]
  dsimp only
  rw [if_neg (by decide : ¬ (str "/v2/demo/blobs/uploads/s" = []))]
  rw [show resolveLocation demoStore (str "/v2/demo/blobs/uploads/s") = sessURL0 from rfl]
  rw [demo_patch0]
  dsimp only
  rw [if_neg (by decide : ¬ ((mkResp 202).location ≠ []))]
  rw [show parseUploadedSize (mkResp 202).range = 0 from rfl]
  rw [if_neg (by decide : ¬ (sessURL0.contains '?' = true))]
  rw [demo_fin0]

theorem uploadBlob_demo_second (dig : List Nat → Str) (B : List Nat)
    (bl : List (Str × List Nat)) (mn : List (Str × ociManifest)) :
    uploadBlob dig demoStore (demoHandler dig) ⟨1, [], bl, mn⟩ B
      = (.ok (str "sha256:" ++ dig B, 0),
         ⟨2, [], (str "sha256:" ++ dig B, B) :: bl, mn⟩) := by
  unfold uploadBlob
  rw [demo_post1]
  dsimp only
  rw [if_neg (by decide : ¬ (str "/v2/demo/blobs/uploads/si" = []))]
  rw [show resolveLocation demoStore (str "/v2/demo/blobs/uploads/si") = sessURL1 from rfl]
  rw [demo_patch1]
  dsimp only
  rw [if_neg (by decide : ¬ ((mkResp 202).location ≠ []))]
  rw [show parseUploadedSize (mkResp 202).range = 0 from rfl]
  rw [if_neg (by decide : ¬ (sessURL1.contains '?' = true))]
  rw [demo_fin1]

theorem manPut_demo (dig : List Nat → Str) (tag : Str) (m : ociManifest)
    (bl : List (Str × List Nat)) (mn : List (Str × ociManifest)) :
    doRepo demoStore (demoHandler dig) ⟨2, [], bl, mn⟩ (str "PUT")
      (str "/manifests/" ++ tag) (.manifest m)
      [(str "Content-Type", str "application/vnd.oci.image.manifest.v1+json")]
      = (.ok (mkResp 201), ⟨2, [], bl, (tag, m) :: mn⟩) := by
  rfl

theorem putByTag_demo (dig : List Nat → Str) (tag : Str) (B : List Nat) :
    putByTag dig demoStore (demoHandler dig) Registry.empty tag B
      = (.ok 0, regFinal dig tag B) := by
  unfold putByTag
  rw [show (Registry.empty : Registry) = (⟨0, [], [], []⟩ : Registry) from rfl]
  rw [uploadBlob_demo_first]
  dsimp only
  rw [uploadBlob_demo_second]
  dsimp only
  rw [manPut_demo]
  rfl

theorem call_getman (dig : List Nat → Str) (tag : Str) (m : ociManifest)
    (bl : List (Str × List Nat)) (mn : List (Str × ociManifest))
    (hdrs : List (Str × Str)) (h : List.lookup tag mn = some m) :
    doCall (demoHandler dig) ⟨2, [], bl, mn⟩ (str "GET")
      (baseURL demoStore (demoStore.repo ++ (str "/manifests/" ++ tag))) .empty hdrs
      = (.ok { mkResp 200 with bodyManifest := some m }, ⟨2, [], bl, mn⟩) := by
  unfold doCall
  have hh : (demoHandler dig) ⟨2, [], bl, mn⟩
      ⟨str "GET", baseURL demoStore (demoStore.repo ++ (str "/manifests/" ++ tag)), .empty, hdrs⟩
      = ({ mkResp 200 with bodyManifest := some m }, ⟨2, [], bl, mn⟩) := by
    show (match List.lookup tag mn with
          | some m2 => ({ mkResp 200 with bodyManifest := some m2 }, (⟨2, [], bl, mn⟩ : Registry))
          | none => (mkResp 404, (⟨2, [], bl, mn⟩ : Registry)))
        = ({ mkResp 200 with bodyManifest := some m }, ⟨2, [], bl, mn⟩)
    rw [h]
  rw [hh]
  rfl

theorem call_getblob (dig : List Nat → Str) (d : Str) (bs : List Nat)
    (bl : List (Str × List Nat)) (mn : List (Str × ociManifest))
    (hdrs : List (Str × Str)) (h : List.lookup (str "sha256:" ++ d) bl = some bs) :
    doCall (demoHandler dig) ⟨2, [], bl, mn⟩ (str "GET")
      (baseURL demoStore (demoStore.repo ++ str "/blobs/" ++ (str "sha256:" ++ d))) .empty hdrs
      = (.ok { mkResp 200 with bodyBytes := bs }, ⟨2, [], bl, mn⟩) := by
  unfold doCall
  have hh : (demoHandler dig) ⟨2, [], bl, mn⟩
      ⟨str "GET", baseURL demoStore (demoStore.repo ++ str "/blobs/" ++ (str "sha256:" ++ d)), .empty, hdrs⟩
      = ({ mkResp 200 with bodyBytes := bs }, ⟨2, [], bl, mn⟩) := by
    show (match List.lookup (str "sha256:" ++ d) bl with
          | some v => ({ mkResp 200 with bodyBytes := v }, (⟨2, [], bl, mn⟩ : Registry))
          | none => (mkResp 404, (⟨2, [], bl, mn⟩ : Registry)))
        = ({ mkResp 200 with bodyBytes := bs }, ⟨2, [], bl, mn⟩)
    rw [h]
  rw [hh]
  rfl

theorem getByTag_demo (dig : List Nat → Str) (tag : Str) (B : List Nat)
    (hB : dig B = dig cfgBytes → B = cfgBytes) :
    getByTag demoStore (demoHandler dig) (regFinal dig tag B) tag []
      = (.ok B, regFinal dig tag B) := by
  have hlkman : List.lookup tag [(tag, manFor dig B)] = some (manFor dig B) := by
    simp [List.lookup]
  have hlkblob : List.lookup (str "sha256:" ++ dig B)
      [(str "sha256:" ++ dig cfgBytes, cfgBytes), (str "sha256:" ++ dig B, B)]
      = some B := by
    by_cases hc : dig cfgBytes = dig B
    · have hBc : B = cfgBytes := hB hc.symm
      subst hBc
      rw [hc]
      simp [List.lookup]
    · have hne : (str "sha256:" ++ dig B) ≠ (str "sha256:" ++ dig cfgBytes) := by
        intro hx
        exact hc (List.append_cancel_left hx).symm
      simp [List.lookup, beq_false_of_ne hne]
  unfold getByTag doRepo
  rw [show (regFinal dig tag B : Registry)
        = ⟨2, [], [(str "sha256:" ++ dig cfgBytes, cfgBytes), (str "sha256:" ++ dig B, B)],
           [(tag, manFor dig B)]⟩ from rfl]
  rw [call_getman dig tag (manFor dig B) _ _ _ hlkman]
  dsimp only [manFor]
  rw [if_neg (append_ne_nil_left (a := str "sha256:") (dig B) (by decide))]
  rw [call_getblob dig (dig B) B _ _ _ hlkblob]

/-- C1: for every supported resource category, 32-byte key, and byte
sequence `B`, `Put` followed by `Get` (no range) against a registry that
faithfully stores blobs and manifests returns exactly `B`.  The digest
function is assumed collision-free at the one pair of inputs a collision
could confuse (the payload and the fixed config body), which is the
standing assumption behind content addressing by SHA-256. -/
theorem C1_put_get_roundtrip (dig : List Nat → Str) (res : StorageResource)
    (mac B : List Nat) (hres : supportedRes res = true) (hmac : mac.length = 32)
    (hdig : dig B = dig cfgBytes → B = cfgBytes) :
    (Put dig demoStore (demoHandler dig) Registry.empty res mac B).1 = .ok 0 ∧
    (Get demoStore (demoHandler dig)
      (Put dig demoStore (demoHandler dig) Registry.empty res mac B).2
      res mac none).1 = .ok B := by
  cases res with
  | other n => simp [supportedRes] at hres
  | packfile =>
    have hput : Put dig demoStore (demoHandler dig) Registry.empty .packfile mac B
        = (.ok 0, regFinal dig (str "packfiles-" ++ hexOfBytes mac) B) := by
      show putByTag dig demoStore (demoHandler dig) Registry.empty
          (str "packfiles-" ++ hexOfBytes mac) B = _
      exact putByTag_demo dig (str "packfiles-" ++ hexOfBytes mac) B
    rw [hput]
    refine ⟨rfl, ?_⟩
    show (getByTag demoStore (demoHandler dig)
        (regFinal dig (str "packfiles-" ++ hexOfBytes mac) B)
        (str "packfiles-" ++ hexOfBytes mac) (rangeHeaders none)).1 = .ok B
    rw [show rangeHeaders none = [] from rfl]
    rw [getByTag_demo dig (str "packfiles-" ++ hexOfBytes mac) B hdig]
  | state =>
    have hput : Put dig demoStore (demoHandler dig) Registry.empty .state mac B
        = (.ok 0, regFinal dig (str "state-" ++ hexOfBytes mac) B) := by
      show putByTag dig demoStore (demoHandler dig) Registry.empty
          (str "state-" ++ hexOfBytes mac) B = _
      exact putByTag_demo dig (str "state-" ++ hexOfBytes mac) B
    rw [hput]
    refine ⟨rfl, ?_⟩
    show (getByTag demoStore (demoHandler dig)
        (regFinal dig (str "state-" ++ hexOfBytes mac) B)
        (str "state-" ++ hexOfBytes mac) (rangeHeaders none)).1 = .ok B
    rw [show rangeHeaders none = [] from rfl]
    rw [getByTag_demo dig (str "state-" ++ hexOfBytes mac) B hdig]
  | lock =>
    have hput : Put dig demoStore (demoHandler dig) Registry.empty .lock mac B
        = (.ok 0, regFinal dig (str "locks-" ++ hexOfBytes mac) B) := by
      show putByTag dig demoStore (demoHandler dig) Registry.empty
          (str "locks-" ++ hexOfBytes mac) B = _
      exact putByTag_demo dig (str "locks-" ++ hexOfBytes mac) B
    rw [hput]
    refine ⟨rfl, ?_⟩
    show (getByTag demoStore (demoHandler dig)
        (regFinal dig (str "locks-" ++ hexOfBytes mac) B)
        (str "locks-" ++ hexOfBytes mac) (rangeHeaders none)).1 = .ok B
    rw [show rangeHeaders none = [] from rfl]
    rw [getByTag_demo dig (str "locks-" ++ hexOfBytes mac) B hdig]

/-- Witness for C1 at category packfile, an all-sevens key, payload
`[1, 2, 3]`, and the concrete digest function `hexDig`. -/
theorem C1_put_get_roundtrip_witness :
    (supportedRes .packfile = true ∧ (List.replicate 32 7).length = 32 ∧
      (hexDig [1, 2, 3] = hexDig cfgBytes → [1, 2, 3] = cfgBytes)) ∧
    ((Put hexDig demoStore (demoHandler hexDig) Registry.empty .packfile
        (List.replicate 32 7) [1, 2, 3]).1 = .ok 0 ∧
     (Get demoStore (demoHandler hexDig)
        (Put hexDig demoStore (demoHandler hexDig) Registry.empty .packfile
          (List.replicate 32 7) [1, 2, 3]).2
        .packfile (List.replicate 32 7) none).1 = .ok [1, 2, 3]) :=
  ⟨⟨by decide, by decide, by decide⟩,
   C1_put_get_roundtrip hexDig .packfile (List.replicate 32 7) [1, 2, 3]
     (by decide) (by decide) (by decide)⟩

/-- C5: for every resource category other than packfile, state, and lock,
each of Put, Get, Delete, and List fails with `errors.ErrUnsupported` and
performs zero network calls: for an arbitrary handler over an arbitrary
state type, the state (in particular a request trace) is returned
untouched, so the handler is never consulted. -/
theorem C5_unsupported_rejected {σ : Type} (dig : List Nat → Str)
    (s : ociStore) (H : Handler σ) (st : σ) (n : Nat) (mac rd : List Nat)
    (rg : Option RangeReq) :
    Put dig s H st (.other n) mac rd = (.error .unsupported, st) ∧
    Get s H st (.other n) mac rg = (.error .unsupported, st) ∧
    Delete s H st (.other n) mac = (.error .unsupported, st) ∧
    ListOp s H st (.other n) = (.error .unsupported, st) :=
  ⟨rfl, rfl, rfl, rfl⟩

/-- The tag `Put`/`Get`/`Delete` build for a supported category and key. -/
def tagFor (res : StorageResource) (mac : List Nat) : Str :=
  match res with
  | .packfile => str "packfiles-" ++ hexOfBytes mac
  | .state => str "state-" ++ hexOfBytes mac
  | .lock => str "locks-" ++ hexOfBytes mac
  | .other _ => []

/-- The manifest GET request issued by `getByTag`. -/
def manGetReq (s : ociStore) (tag : Str) : Req :=
  ⟨str "GET", baseURL s (s.repo ++ (str "/manifests/" ++ tag)), .empty,
   [(str "Accept", acceptManifests)]⟩

/-- The blob GET request issued by `getByTag`. -/
def blobGetReq (s : ociStore) (d : Str) (hdrs : List (Str × Str)) : Req :=
  ⟨str "GET", baseURL s (s.repo ++ str "/blobs/" ++ d), .empty, hdrs⟩

theorem getByTag_trace (s : ociStore) (respond : Req → Resp) (tr : List Req)
    (tag : Str) (hdrs : List (Str × Str)) (m : ociManifest) (d : descriptor)
    (tail : List descriptor)
    (h2 : is2xx (respond (manGetReq s tag)).status = true)
    (hbody : (respond (manGetReq s tag)).bodyManifest = some m)
    (hlay : m.Layers = d :: tail) (hd : ¬ d.Digest = []) :
    (getByTag s (recHandler respond) tr tag hdrs).2
      = tr ++ [manGetReq s tag, blobGetReq s d.Digest hdrs] := by
  simp only [manGetReq, blobGetReq] at h2 hbody ⊢
  simp only [getByTag, doRepo, doCall, recHandler]
  rw [h2]
  simp only [if_true]
  rw [hbody]
  dsimp only
  rw [hlay]
  dsimp only
  rw [if_neg hd]
  by_cases hb : is2xx (respond ⟨str "GET", baseURL s (s.repo ++ str "/blobs/" ++ d.Digest), .empty, hdrs⟩).status = true
  · rw [if_pos hb]
    dsimp only
    simp [List.append_assoc]
  · rw [if_neg hb]
    dsimp only
    simp [List.append_assoc]

/-- C9: a `Get` with range `{offset, length}` (nonzero length, end bound
representable) sends the blob request with exactly the header
`Range: bytes=offset-(offset+length-1)`. -/
theorem C9_range_header (s : ociStore) (respond : Req → Resp) (tr : List Req)
    (res : StorageResource) (mac : List Nat) (o l : Nat) (m : ociManifest)
    (d : descriptor) (tail : List descriptor)
    (hres : supportedRes res = true) (ho : o < U64) (hl : l < U64)
    (hl0 : 0 < l) (hsum : o + l ≤ U64)
    (h2 : is2xx (respond (manGetReq s (tagFor res mac))).status = true)
    (hbody : (respond (manGetReq s (tagFor res mac))).bodyManifest = some m)
    (hlay : m.Layers = d :: tail) (hd : ¬ d.Digest = []) :
    (Get s (recHandler respond) tr res mac (some ⟨o, l⟩)).2
      = tr ++ [manGetReq s (tagFor res mac),
               blobGetReq s d.Digest
                 [(str "Range",
                   str "bytes=" ++ natStr o ++ str "-" ++ natStr (o + l - 1))]] := by
  have he : u64end o l = o + l - 1 := by
    unfold u64end
    rw [Nat.mod_eq_of_lt ho, Nat.mod_eq_of_lt hl]
    simp only [U64] at hsum ⊢
    omega
  have hdr : rangeHeaders (some ⟨o, l⟩)
      = [(str "Range", str "bytes=" ++ natStr o ++ str "-" ++ natStr (o + l - 1))] := by
    simp only [rangeHeaders]
    rw [Nat.mod_eq_of_lt ho, he]
  cases res with
  | other n => simp [supportedRes] at hres
  | packfile =>
    show (getByTag s (recHandler respond) tr (str "packfiles-" ++ hexOfBytes mac)
        (rangeHeaders (some ⟨o, l⟩))).2 = _
    rw [hdr]
    exact getByTag_trace s respond tr _ _ m d tail h2 hbody hlay hd
  | state =>
    show (getByTag s (recHandler respond) tr (str "state-" ++ hexOfBytes mac)
        (rangeHeaders (some ⟨o, l⟩))).2 = _
    rw [hdr]
    exact getByTag_trace s respond tr _ _ m d tail h2 hbody hlay hd
  | lock =>
    show (getByTag s (recHandler respond) tr (str "locks-" ++ hexOfBytes mac)
        (rangeHeaders (some ⟨o, l⟩))).2 = _
    rw [hdr]
    exact getByTag_trace s respond tr _ _ m d tail h2 hbody hlay hd

/-- A fixed registry reply used by witnesses: every request is answered
with status 200, a decodable one-layer manifest, and blob payload 42. -/
def manW : ociManifest :=
  { SchemaVersion := 2, MediaType := [],
    Config := ⟨[], [], 0⟩,
    Layers := [⟨[], str "sha256:ab", 3⟩] }

/-- Stateless response function serving `manW` for every request. -/
def respondW : Req → Resp :=
  fun _ => { mkResp 200 with bodyManifest := some manW, bodyBytes := [42] }

/-- Witness for C9 at offset 5, length 7 against `respondW`. -/
theorem C9_range_header_witness :
    (supportedRes .packfile = true ∧ (5 : Nat) < U64 ∧ (7 : Nat) < U64 ∧
      (0 : Nat) < 7 ∧ (5 : Nat) + 7 ≤ U64 ∧
      is2xx (respondW (manGetReq demoStore (tagFor .packfile (List.replicate 32 1)))).status = true ∧
      (respondW (manGetReq demoStore (tagFor .packfile (List.replicate 32 1)))).bodyManifest = some manW ∧
      manW.Layers = ⟨[], str "sha256:ab", 3⟩ :: [] ∧
      ¬ (⟨[], str "sha256:ab", 3⟩ : descriptor).Digest = []) ∧
    (Get demoStore (recHandler respondW) [] .packfile (List.replicate 32 1)
        (some ⟨5, 7⟩)).2
      = [] ++ [manGetReq demoStore (tagFor .packfile (List.replicate 32 1)),
               blobGetReq demoStore (str "sha256:ab")
                 [(str "Range",
                   str "bytes=" ++ natStr 5 ++ str "-" ++ natStr (5 + 7 - 1))]] :=
  ⟨⟨by decide, by decide, by decide, by decide, by decide, by decide, by decide,
    by decide, by decide⟩,
   C9_range_header demoStore respondW [] .packfile (List.replicate 32 1) 5 7
     manW ⟨[], str "sha256:ab", 3⟩ [] (by decide) (by decide) (by decide)
     (by decide) (by decide) (by decide) (by decide) (by decide) (by decide)⟩

/-- C10: with a zero-length range, the end bound wraps modulo 2^64, so a
`Get` at offset 0 and length 0 sends
`Range: bytes=0-18446744073709551615` on the blob request. -/
theorem C10_zero_length_range_wraps :
    u64end 0 0 = 18446744073709551615 ∧
    (Get demoStore (recHandler respondW) [] .packfile (List.replicate 32 0)
        (some ⟨0, 0⟩)).2
      = [manGetReq demoStore (str "packfiles-" ++ hexOfBytes (List.replicate 32 0)),
         blobGetReq demoStore (str "sha256:ab")
           [(str "Range", str "bytes=0-18446744073709551615")]] := by
  constructor
  · rfl
  · rfl

/-- The POST request that opens an upload session. -/
def uploadStartReq (s : ociStore) : Req :=
  ⟨str "POST", baseURL s (s.repo ++ str "/blobs/uploads/"), .empty, []⟩

/-- The PATCH request streaming the payload to the resolved session
location. -/
def patchReqFor (s : ociStore) (loc : Str) (rd : List Nat) : Req :=
  ⟨str "PATCH", resolveLocation s loc, .bytes rd,
   [(str "Content-Type", str "application/octet-stream")]⟩

/-- The PATCH response of a stateless registry reply function. -/
def uploadPatchResp (s : ociStore) (respond : Req → Resp) (rd : List Nat) : Resp :=
  respond (patchReqFor s ((respond (uploadStartReq s)).location) rd)

/-- The latest session location after the PATCH step: the PATCH response's
`Location` if present (re-resolved against the origin), the initial one
otherwise. -/
def latestUploadURL (s : ociStore) (respond : Req → Resp) (rd : List Nat) : Str :=
  if (uploadPatchResp s respond rd).location ≠ [] then
    resolveLocation s ((uploadPatchResp s respond rd).location)
  else resolveLocation s ((respond (uploadStartReq s)).location)

/-- The finalize URL: latest session location plus the escaped digest
query parameter, joined with the right separator. -/
def uploadFinURL (dig : List Nat → Str) (s : ociStore) (respond : Req → Resp)
    (rd : List Nat) : Str :=
  if (latestUploadURL s respond rd).contains '?' then
    latestUploadURL s respond rd ++ str "&digest=" ++ queryEscape (str "sha256:" ++ dig rd)
  else
    latestUploadURL s respond rd ++ str "?digest=" ++ queryEscape (str "sha256:" ++ dig rd)

/-- The finalize PUT request: latest location plus digest, no body. -/
def uploadFinReq (dig : List Nat → Str) (s : ociStore) (respond : Req → Resp)
    (rd : List Nat) : Req :=
  ⟨str "PUT", uploadFinURL dig s respond rd, .empty, []⟩

theorem uploadBlob_run (dig : List Nat → Str) (s : ociStore)
    (respond : Req → Resp) (tr : List Req) (rd : List Nat)
    (hpost2 : is2xx (respond (uploadStartReq s)).status = true)
    (hloc : ¬ (respond (uploadStartReq s)).location = [])
    (hpatch2 : is2xx (uploadPatchResp s respond rd).status = true) :
    uploadBlob dig s (recHandler respond) tr rd
      = ((if is2xx (respond (uploadFinReq dig s respond rd)).status = true
          then .ok (str "sha256:" ++ dig rd,
                    parseUploadedSize (uploadPatchResp s respond rd).range)
          else .error (.msg (str "oci " ++ str "PUT" ++ str " "
                             ++ uploadFinURL dig s respond rd))),
         tr ++ [uploadStartReq s]
            ++ [patchReqFor s ((respond (uploadStartReq s)).location) rd]
            ++ [uploadFinReq dig s respond rd]) := by
  simp only [uploadFinReq, uploadFinURL, latestUploadURL, uploadPatchResp,
    patchReqFor, uploadStartReq] at hpost2 hloc hpatch2 ⊢
  simp only [uploadBlob, doRepo, doCall, recHandler]
  rw [hpost2]
  simp only [if_true]
  rw [if_neg hloc]
  rw [hpatch2]
  simp only [if_true]
  by_cases hpl : (respond ⟨str "PATCH",
      resolveLocation s ((respond ⟨str "POST", baseURL s (s.repo ++ str "/blobs/uploads/"), .empty, []⟩).location),
      .bytes rd, [(str "Content-Type", str "application/octet-stream")]⟩).location ≠ []
  · rw [if_pos hpl]
    by_cases hq : (resolveLocation s ((respond ⟨str "PATCH",
        resolveLocation s ((respond ⟨str "POST", baseURL s (s.repo ++ str "/blobs/uploads/"), .empty, []⟩).location),
        .bytes rd, [(str "Content-Type", str "application/octet-stream")]⟩).location)).contains '?' = true
    · rw [if_pos hq]
      by_cases hf : is2xx (respond ⟨str "PUT",
          resolveLocation s ((respond ⟨str "PATCH",
            resolveLocation s ((respond ⟨str "POST", baseURL s (s.repo ++ str "/blobs/uploads/"), .empty, []⟩).location),
            .bytes rd, [(str "Content-Type", str "application/octet-stream")]⟩).location)
          ++ str "&digest=" ++ queryEscape (str "sha256:" ++ dig rd), .empty, []⟩).status = true
      · simp only [if_pos hf]
      · simp only [if_neg hf]
    · rw [if_neg hq]
      by_cases hf : is2xx (respond ⟨str "PUT",
          resolveLocation s ((respond ⟨str "PATCH",
            resolveLocation s ((respond ⟨str "POST", baseURL s (s.repo ++ str "/blobs/uploads/"), .empty, []⟩).location),
            .bytes rd, [(str "Content-Type", str "application/octet-stream")]⟩).location)
          ++ str "?digest=" ++ queryEscape (str "sha256:" ++ dig rd), .empty, []⟩).status = true
      · simp only [if_pos hf]
      · simp only [if_neg hf]
  · rw [if_neg hpl]
    by_cases hq : (resolveLocation s ((respond ⟨str "POST",
        baseURL s (s.repo ++ str "/blobs/uploads/"), .empty, []⟩).location)).contains '?' = true
    · rw [if_pos hq]
      by_cases hf : is2xx (respond ⟨str "PUT",
          resolveLocation s ((respond ⟨str "POST", baseURL s (s.repo ++ str "/blobs/uploads/"), .empty, []⟩).location)
          ++ str "&digest=" ++ queryEscape (str "sha256:" ++ dig rd), .empty, []⟩).status = true
      · simp only [if_pos hf]
      · simp only [if_neg hf]
    · rw [if_neg hq]
      by_cases hf : is2xx (respond ⟨str "PUT",
          resolveLocation s ((respond ⟨str "POST", baseURL s (s.repo ++ str "/blobs/uploads/"), .empty, []⟩).location)
          ++ str "?digest=" ++ queryEscape (str "sha256:" ++ dig rd), .empty, []⟩).status = true
      · simp only [if_pos hf]
      · simp only [if_neg hf]

/-- A registry reply that answers the upload-open POST with a session
location and everything else with a bare 202 (no `Range`, no `Location`). -/
def respondU : Req → Resp := fun r =>
  if r.method = str "POST" then { mkResp 202 with location := str "/up" }
  else mkResp 202

theorem parseUploadedSize_not_two_parts (rng : Str)
    (h : (rng.splitOn '-').length ≠ 2) : parseUploadedSize rng = 0 := by
  unfold parseUploadedSize
  by_cases h0 : rng = []
  · rw [if_pos h0]
  · rw [if_neg h0]
    dsimp only
    rw [if_pos h]

/-- C2 counterexample: uploading the three bytes `[1, 2, 3]` against a
registry whose PATCH response has no `Range` header returns size 0, not
the locally streamed byte count 3 — the client keeps no local byte
count. -/
theorem C2_counterexample_size_not_streamed :
    (uploadBlob hexDig demoStore (pureHandler respondU) () [1, 2, 3]).1
      = .ok (str "sha256:" ++ hexDig [1, 2, 3], 0) ∧
    (uploadPatchResp demoStore respondU [1, 2, 3]).range = [] ∧
    ¬ ((0 : Int) = ([1, 2, 3] : List Nat).length) := by
  refine ⟨rfl, rfl, by decide⟩

/-- C2 amended: when the PATCH response's `Range` header is absent or does
not split into exactly two `-`-separated fields, the size returned by a
successful upload is 0 (`parseUploadedSize`'s default); the client does
not fall back to a locally counted number of streamed bytes. -/
theorem C2_size_defaults_to_zero (dig : List Nat → Str) (s : ociStore)
    (respond : Req → Resp) (tr : List Req) (rd : List Nat)
    (hpost2 : is2xx (respond (uploadStartReq s)).status = true)
    (hloc : ¬ (respond (uploadStartReq s)).location = [])
    (hpatch2 : is2xx (uploadPatchResp s respond rd).status = true)
    (hfin2 : is2xx (respond (uploadFinReq dig s respond rd)).status = true)
    (hrng : (((uploadPatchResp s respond rd).range).splitOn '-').length ≠ 2) :
    (uploadBlob dig s (recHandler respond) tr rd).1
      = .ok (str "sha256:" ++ dig rd, 0) := by
  rw [uploadBlob_run dig s respond tr rd hpost2 hloc hpatch2]
  dsimp only
  rw [if_pos hfin2]
  rw [parseUploadedSize_not_two_parts _ hrng]

/-- Witness for the amended C2 against `respondU` (no `Range` header). -/
theorem C2_size_defaults_to_zero_witness :
    (is2xx (respondU (uploadStartReq demoStore)).status = true ∧
     ¬ (respondU (uploadStartReq demoStore)).location = [] ∧
     is2xx (uploadPatchResp demoStore respondU [9, 9]).status = true ∧
     is2xx (respondU (uploadFinReq hexDig demoStore respondU [9, 9])).status = true ∧
     ((((uploadPatchResp demoStore respondU [9, 9]).range).splitOn '-').length ≠ 2)) ∧
    (uploadBlob hexDig demoStore (recHandler respondU) [] [9, 9]).1
      = .ok (str "sha256:" ++ hexDig [9, 9], 0) :=
  ⟨⟨by decide, by decide, by decide, by decide, by decide⟩,
   C2_size_defaults_to_zero hexDig demoStore respondU [] [9, 9]
     (by decide) (by decide) (by decide) (by decide) (by decide)⟩

/-- The HEAD request issued by `headManifestDigest`. -/
def headReq (s : ociStore) (ref : Str) : Req :=
  ⟨str "HEAD", baseURL s (s.repo ++ (str "/manifests/" ++ ref)), .empty,
   [(str "Accept", acceptManifests)]⟩

/-- C7: every protocol-contract violation yields the corresponding
descriptive error value: missing `Location` on upload initiation, missing
`Docker-Content-Digest` on HEAD, and a manifest body that fails to
decode, has zero layers, or has an empty first-layer digest. -/
theorem C7_protocol_violations_error :
    (∀ (dig : List Nat → Str) (s : ociStore) (respond : Req → Resp)
       (u : Unit) (rd : List Nat),
      is2xx (respond (uploadStartReq s)).status = true →
      (respond (uploadStartReq s)).location = [] →
      (uploadBlob dig s (pureHandler respond) u rd).1
        = .error (.msg (str "registry missing Location on upload start"))) ∧
    (∀ (s : ociStore) (respond : Req → Resp) (u : Unit) (ref : Str),
      is2xx (respond (headReq s ref)).status = true →
      (respond (headReq s ref)).dcd = [] →
      (headManifestDigest s (pureHandler respond) u ref).1
        = .error (.msg (str "missing Docker-Content-Digest header on HEAD manifest"))) ∧
    (∀ (s : ociStore) (respond : Req → Resp) (u : Unit) (tag : Str)
       (hdrs : List (Str × Str)),
      is2xx (respond (manGetReq s tag)).status = true →
      (respond (manGetReq s tag)).bodyManifest = none →
      (getByTag s (pureHandler respond) u tag hdrs).1
        = .error (.msg (str "decode manifest"))) ∧
    (∀ (s : ociStore) (respond : Req → Resp) (u : Unit) (tag : Str)
       (hdrs : List (Str × Str)) (m : ociManifest),
      is2xx (respond (manGetReq s tag)).status = true →
      (respond (manGetReq s tag)).bodyManifest = some m →
      m.Layers = [] →
      (getByTag s (pureHandler respond) u tag hdrs).1
        = .error (.msg (str "manifest has no layers"))) ∧
    (∀ (s : ociStore) (respond : Req → Resp) (u : Unit) (tag : Str)
       (hdrs : List (Str × Str)) (m : ociManifest) (d : descriptor)
       (tl : List descriptor),
      is2xx (respond (manGetReq s tag)).status = true →
      (respond (manGetReq s tag)).bodyManifest = some m →
      m.Layers = d :: tl →
      d.Digest = [] →
      (getByTag s (pureHandler respond) u tag hdrs).1
        = .error (.msg (str "manifest layer digest missing"))) := by
  refine ⟨?_, ?_, ?_, ?_, ?_⟩
  · intro dig s respond u rd h2 hl
    simp only [uploadStartReq] at h2 hl
    simp only [uploadBlob, doRepo, doCall, pureHandler]
    rw [h2]
    simp only [if_true]
    rw [if_pos hl]
  · intro s respond u ref h2 hd
    simp only [headReq] at h2 hd
    simp only [headManifestDigest, doRepo, doCall, pureHandler]
    rw [h2]
    simp only [if_true]
    rw [if_pos hd]
  · intro s respond u tag hdrs h2 hb
    simp only [manGetReq] at h2 hb
    simp only [getByTag, doRepo, doCall, pureHandler]
    rw [h2]
    simp only [if_true]
    rw [hb]
  · intro s respond u tag hdrs m h2 hb hlay
    simp only [manGetReq] at h2 hb
    simp only [getByTag, doRepo, doCall, pureHandler]
    rw [h2]
    simp only [if_true]
    rw [hb]
    dsimp only
    rw [hlay]
  · intro s respond u tag hdrs m d tl h2 hb hlay hd
    simp only [manGetReq] at h2 hb
    simp only [getByTag, doRepo, doCall, pureHandler]
    rw [h2]
    simp only [if_true]
    rw [hb]
    dsimp only
    rw [hlay]
    dsimp only
    rw [if_pos hd]

/-- A registry reply with no useful headers or body: status 202 only. -/
def respondBare : Req → Resp := fun _ => mkResp 202

/-- A decodable manifest with zero layers. -/
def manNoLayers : ociManifest := ⟨2, [], ⟨[], [], 0⟩, []⟩

/-- Serves `manNoLayers` for every request. -/
def respondNoLayers : Req → Resp :=
  fun _ => { mkResp 200 with bodyManifest := some manNoLayers }

/-- A decodable manifest whose first layer has an empty digest. -/
def manEmptyDigest : ociManifest := ⟨2, [], ⟨[], [], 0⟩, [⟨[], [], 0⟩]⟩

/-- Serves `manEmptyDigest` for every request. -/
def respondEmptyDigest : Req → Resp :=
  fun _ => { mkResp 200 with bodyManifest := some manEmptyDigest }

/-- Witness for C7: each of the five violations at a concrete registry
reply. -/
theorem C7_protocol_violations_error_witness :
    (is2xx (respondBare (uploadStartReq demoStore)).status = true ∧
     (respondBare (uploadStartReq demoStore)).location = [] ∧
     (uploadBlob hexDig demoStore (pureHandler respondBare) () [1]).1
       = .error (.msg (str "registry missing Location on upload start"))) ∧
    (is2xx (respondBare (headReq demoStore (str "t"))).status = true ∧
     (respondBare (headReq demoStore (str "t"))).dcd = [] ∧
     (headManifestDigest demoStore (pureHandler respondBare) () (str "t")).1
       = .error (.msg (str "missing Docker-Content-Digest header on HEAD manifest"))) ∧
    (is2xx (respondBare (manGetReq demoStore (str "t"))).status = true ∧
     (respondBare (manGetReq demoStore (str "t"))).bodyManifest = none ∧
     (getByTag demoStore (pureHandler respondBare) () (str "t") []).1
       = .error (.msg (str "decode manifest"))) ∧
    (is2xx (respondNoLayers (manGetReq demoStore (str "t"))).status = true ∧
     (respondNoLayers (manGetReq demoStore (str "t"))).bodyManifest = some manNoLayers ∧
     manNoLayers.Layers = [] ∧
     (getByTag demoStore (pureHandler respondNoLayers) () (str "t") []).1
       = .error (.msg (str "manifest has no layers"))) ∧
    (is2xx (respondEmptyDigest (manGetReq demoStore (str "t"))).status = true ∧
     (respondEmptyDigest (manGetReq demoStore (str "t"))).bodyManifest = some manEmptyDigest ∧
     manEmptyDigest.Layers = ⟨[], [], 0⟩ :: [] ∧
     (⟨[], [], 0⟩ : descriptor).Digest = [] ∧
     (getByTag demoStore (pureHandler respondEmptyDigest) () (str "t") []).1
       = .error (.msg (str "manifest layer digest missing"))) :=
  ⟨⟨by decide, by decide,
    C7_protocol_violations_error.1 hexDig demoStore respondBare () [1]
      (by decide) (by decide)⟩,
   ⟨by decide, by decide,
    C7_protocol_violations_error.2.1 demoStore respondBare () (str "t")
      (by decide) (by decide)⟩,
   ⟨by decide, by decide,
    C7_protocol_violations_error.2.2.1 demoStore respondBare () (str "t") []
      (by decide) (by decide)⟩,
   ⟨by decide, by decide, by decide,
    C7_protocol_violations_error.2.2.2.1 demoStore respondNoLayers () (str "t") []
      manNoLayers (by decide) (by decide) (by decide)⟩,
   ⟨by decide, by decide, by decide, by decide,
    C7_protocol_violations_error.2.2.2.2 demoStore respondEmptyDigest () (str "t") []
      manEmptyDigest ⟨[], [], 0⟩ [] (by decide) (by decide) (by decide) (by decide)⟩⟩

/-- C4: after a successful POST and PATCH, the upload finalizes with a PUT
against the latest session location — the PATCH response's `Location`
(re-resolved against the origin) when present, the initial one otherwise —
with `digest=<algorithm>:<hex>` appended as a query parameter using `&`
when the location already has a query string and `?` otherwise, and no
request body; a non-2xx finalize response fails the whole upload with the
transport error for that PUT. -/
theorem C4_finalize_put (dig : List Nat → Str) (s : ociStore)
    (respond : Req → Resp) (tr : List Req) (rd : List Nat)
    (hpost2 : is2xx (respond (uploadStartReq s)).status = true)
    (hloc : ¬ (respond (uploadStartReq s)).location = [])
    (hpatch2 : is2xx (uploadPatchResp s respond rd).status = true) :
    (uploadBlob dig s (recHandler respond) tr rd).2
      = tr ++ [uploadStartReq s]
           ++ [patchReqFor s ((respond (uploadStartReq s)).location) rd]
           ++ [⟨str "PUT", uploadFinURL dig s respond rd, .empty, []⟩] ∧
    ((uploadPatchResp s respond rd).location ≠ [] →
      latestUploadURL s respond rd
        = resolveLocation s ((uploadPatchResp s respond rd).location)) ∧
    uploadFinURL dig s respond rd
      = (if (latestUploadURL s respond rd).contains '?' then
           latestUploadURL s respond rd ++ str "&digest="
             ++ queryEscape (str "sha256:" ++ dig rd)
         else
           latestUploadURL s respond rd ++ str "?digest="
             ++ queryEscape (str "sha256:" ++ dig rd)) ∧
    (¬ is2xx (respond (uploadFinReq dig s respond rd)).status = true →
      (uploadBlob dig s (recHandler respond) tr rd).1
        = .error (.msg (str "oci " ++ str "PUT" ++ str " "
                        ++ uploadFinURL dig s respond rd))) := by
  refine ⟨?_, ?_, ?_, ?_⟩
  · rw [uploadBlob_run dig s respond tr rd hpost2 hloc hpatch2]
    rfl
  · intro h
    unfold latestUploadURL
    rw [if_pos h]
  · rfl
  · intro h
    rw [uploadBlob_run dig s respond tr rd hpost2 hloc hpatch2]
    dsimp only
    rw [if_neg h]

/-- A registry reply that rotates the upload location: the POST answers
with `/up`, the PATCH with an updated location `/up2?x=1` (which already
carries a query string), and the finalize PUT is rejected with 400. -/
def respondV : Req → Resp := fun r =>
  if r.method = str "POST" then { mkResp 202 with location := str "/up" }
  else if r.method = str "PATCH" then { mkResp 202 with location := str "/up2?x=1" }
  else mkResp 400

/-- Witness for C4 against `respondV`: the rotated location is adopted,
the digest parameter is appended with `&`, and the 400 finalize fails the
upload. -/
theorem C4_finalize_put_witness :
    (is2xx (respondV (uploadStartReq demoStore)).status = true ∧
     ¬ (respondV (uploadStartReq demoStore)).location = [] ∧
     is2xx (uploadPatchResp demoStore respondV [5]).status = true) ∧
    ((uploadBlob hexDig demoStore (recHandler respondV) [] [5]).2
      = [] ++ [uploadStartReq demoStore]
           ++ [patchReqFor demoStore ((respondV (uploadStartReq demoStore)).location) [5]]
           ++ [⟨str "PUT", uploadFinURL hexDig demoStore respondV [5], .empty, []⟩] ∧
     ((uploadPatchResp demoStore respondV [5]).location ≠ [] →
       latestUploadURL demoStore respondV [5]
         = resolveLocation demoStore ((uploadPatchResp demoStore respondV [5]).location)) ∧
     uploadFinURL hexDig demoStore respondV [5]
       = (if (latestUploadURL demoStore respondV [5]).contains '?' then
            latestUploadURL demoStore respondV [5] ++ str "&digest="
              ++ queryEscape (str "sha256:" ++ hexDig [5])
          else
            latestUploadURL demoStore respondV [5] ++ str "?digest="
              ++ queryEscape (str "sha256:" ++ hexDig [5])) ∧
     (¬ is2xx (respondV (uploadFinReq hexDig demoStore respondV [5])).status = true →
       (uploadBlob hexDig demoStore (recHandler respondV) [] [5]).1
         = .error (.msg (str "oci " ++ str "PUT" ++ str " "
                         ++ uploadFinURL hexDig demoStore respondV [5])))) :=
  ⟨⟨by decide, by decide, by decide⟩,
   C4_finalize_put hexDig demoStore respondV [] [5]
     (by decide) (by decide) (by decide)⟩

/-- The manifest `putByTag` constructs: fixed media types, schema 2, the
config descriptor for the two-byte body, and a single layer carrying the
payload digest and the size recovered from the PATCH response. -/
def putManFor (dig : List Nat → Str) (s : ociStore) (respond : Req → Resp)
    (rd : List Nat) : ociManifest :=
  { SchemaVersion := 2
    MediaType := str "application/vnd.oci.image.manifest.v1+json"
    Config :=
      { MediaType := str "application/vnd.oci.image.config.v1+json"
        Digest := str "sha256:" ++ dig cfgBytes
        Size := (cfgBytes.length : Int) }
    Layers :=
      [{ MediaType := str "application/octet-stream"
         Digest := str "sha256:" ++ dig rd
         Size := parseUploadedSize (uploadPatchResp s respond rd).range }] }

/-- C8: every manifest written by `putByTag` has schema version 2, exactly
one layer carrying the payload digest and recorded size, and a config
descriptor referring to the fixed two-byte JSON body with size exactly
2.  The trace shows the one manifest PUT and its body. -/
theorem C8_manifest_shape (dig : List Nat → Str) (s : ociStore)
    (respond : Req → Resp) (tr : List Req) (tag : Str) (rd : List Nat)
    (hall : ∀ r, is2xx (respond r).status = true)
    (hloc : ¬ (respond (uploadStartReq s)).location = []) :
    putByTag dig s (recHandler respond) tr tag rd
      = (.ok (parseUploadedSize (uploadPatchResp s respond rd).range),
         tr ++ [uploadStartReq s]
            ++ [patchReqFor s ((respond (uploadStartReq s)).location) rd]
            ++ [uploadFinReq dig s respond rd]
            ++ [uploadStartReq s]
            ++ [patchReqFor s ((respond (uploadStartReq s)).location) cfgBytes]
            ++ [uploadFinReq dig s respond cfgBytes]
            ++ [⟨str "PUT", baseURL s (s.repo ++ (str "/manifests/" ++ tag)),
                 .manifest (putManFor dig s respond rd),
                 [(str "Content-Type", str "application/vnd.oci.image.manifest.v1+json")]⟩]) ∧
    (putManFor dig s respond rd).SchemaVersion = 2 ∧
    (putManFor dig s respond rd).Layers
      = [{ MediaType := str "application/octet-stream"
           Digest := str "sha256:" ++ dig rd
           Size := parseUploadedSize (uploadPatchResp s respond rd).range }] ∧
    (putManFor dig s respond rd).Config.Digest = str "sha256:" ++ dig cfgBytes ∧
    (putManFor dig s respond rd).Config.Size = 2 ∧
    cfgBytes.length = 2 := by
  refine ⟨?_, rfl, rfl, rfl, rfl, rfl⟩
  unfold putByTag
  rw [uploadBlob_run dig s respond tr rd (hall _) hloc (hall _)]
  rw [if_pos (hall _)]
  dsimp only
  rw [uploadBlob_run dig s respond _ cfgBytes (hall _) hloc (hall _)]
  rw [if_pos (hall _)]
  dsimp only
  simp only [doRepo, doCall, recHandler]
  simp only [hall, eq_self_iff_true, if_true]
  rfl

theorem strStartsWith_append (a b : Str) : strStartsWith a (a ++ b) = true := by
  induction a with
  | nil => rfl
  | cons x xs ih => simp [strStartsWith, ih]

theorem http_trim (b : Str) :
    strStartsWith (str "http:") (trimCharRight (str "http:" ++ b) '/') = true := by
  unfold trimCharRight
  rw [List.reverse_append]
  rw [List.dropWhile_append]
  by_cases he : (List.dropWhile (fun x => x == '/') b.reverse).isEmpty = true
  · rw [if_pos he]
    rfl
  · rw [if_neg he]
    rw [List.reverse_append, List.reverse_reverse]
    exact strStartsWith_append _ _

/-- C3: a store handle built by `New` has TLS certificate verification
disabled and no request timeout, its base origin carries the hard-wired
`http:` scheme derived from the configured location, and every repository
request URL extends that base, so every request goes over that scheme. -/
theorem C3_transport_policy (config : List (Str × Str)) (s : ociStore)
    (h : New config = .ok s) :
    s.client.insecureSkipVerify = true ∧
    s.client.timeout = 0 ∧
    strStartsWith (str "http:") s.base = true ∧
    (∀ p, baseURL s p = s.base ++ str "/v2/" ++ p) := by
  unfold New at h
  dsimp only at h
  split at h
  · exact absurd h (by simp)
  · rw [Except.ok.injEq] at h
    subst h
    refine ⟨rfl, rfl, ?_, fun p => rfl⟩
    exact http_trim _

/-- Witness for C3 at the documented example location. -/
theorem C3_transport_policy_witness :
    New [(str "location", str "oci://localhost:5000/demo")] = .ok demoStore ∧
    demoStore.client.insecureSkipVerify = true ∧
    demoStore.client.timeout = 0 ∧
    strStartsWith (str "http:") demoStore.base = true ∧
    baseURL demoStore (str "x") = demoStore.base ++ str "/v2/" ++ str "x" :=
  ⟨rfl,
   (C3_transport_policy [(str "location", str "oci://localhost:5000/demo")] demoStore rfl).1,
   (C3_transport_policy [(str "location", str "oci://localhost:5000/demo")] demoStore rfl).2.1,
   (C3_transport_policy [(str "location", str "oci://localhost:5000/demo")] demoStore rfl).2.2.1,
   (C3_transport_policy [(str "location", str "oci://localhost:5000/demo")] demoStore rfl).2.2.2 (str "x")⟩

/-- A registry reply accepting everything: status 202, session location
`/up`, and a `Range: 0-4` hint. -/
def respondAll : Req → Resp :=
  fun _ => { mkResp 202 with location := str "/up", range := str "0-4" }

/-- Witness for C8 against `respondAll`. -/
theorem C8_manifest_shape_witness :
    putByTag hexDig demoStore (recHandler respondAll) [] (str "k") [7]
      = (.ok (parseUploadedSize (uploadPatchResp demoStore respondAll [7]).range),
         [] ++ [uploadStartReq demoStore]
            ++ [patchReqFor demoStore ((respondAll (uploadStartReq demoStore)).location) [7]]
            ++ [uploadFinReq hexDig demoStore respondAll [7]]
            ++ [uploadStartReq demoStore]
            ++ [patchReqFor demoStore ((respondAll (uploadStartReq demoStore)).location) cfgBytes]
            ++ [uploadFinReq hexDig demoStore respondAll cfgBytes]
            ++ [⟨str "PUT", baseURL demoStore (demoStore.repo ++ (str "/manifests/" ++ str "k")),
                 .manifest (putManFor hexDig demoStore respondAll [7]),
                 [(str "Content-Type", str "application/vnd.oci.image.manifest.v1+json")]⟩]) ∧
    (putManFor hexDig demoStore respondAll [7]).SchemaVersion = 2 ∧
    (putManFor hexDig demoStore respondAll [7]).Layers
      = [{ MediaType := str "application/octet-stream"
           Digest := str "sha256:" ++ hexDig [7]
           Size := parseUploadedSize (uploadPatchResp demoStore respondAll [7]).range }] ∧
    (putManFor hexDig demoStore respondAll [7]).Config.Digest
      = str "sha256:" ++ hexDig cfgBytes ∧
    (putManFor hexDig demoStore respondAll [7]).Config.Size = 2 ∧
    cfgBytes.length = 2 :=
  C8_manifest_shape hexDig demoStore respondAll [] (str "k") [7]
    (fun _ => rfl) (by decide)

/-- Claim-side filter, written from the spec's words: for each tag
starting with the category marker, strip it, hex-decode the remainder,
and accept it only when decoding succeeds and yields exactly 32 bytes. -/
def specTagKey (pfx : Str) (t : Str) : Option (List Nat) :=
  if strStartsWith pfx t then
    match hexDecode (t.drop pfx.length) with
    | some b => if b.length = 32 then some b else none
    | none => none
  else none

/-- The `/tags/list` request issued by `listByPrefix`. -/
def tagsListReq (s : ociStore) : Req :=
  ⟨str "GET", baseURL s (s.repo ++ str "/tags/list"), .empty, []⟩

/-- C6: the tag-filtering loop returns exactly the decoded keys of the
conforming tags — the spec-side `filterMap` characterization — and tags
such as the reserved `CONFIG` tag are silently skipped; `listByPrefix`
returns the filter of the decoded tag list without error. -/
theorem C6_list_by_marker :
    (∀ (pfx : Str) (tags : List Str),
      extractMACs pfx tags = tags.filterMap (specTagKey pfx)) ∧
    extractMACs (str "packfiles-") [str "CONFIG"] = [] ∧
    extractMACs (str "state-") [str "CONFIG"] = [] ∧
    extractMACs (str "locks-") [str "CONFIG"] = [] ∧
    (∀ (s : ociStore) (respond : Req → Resp) (u : Unit) (pfx : Str)
       (tl : tagsList),
      is2xx (respond (tagsListReq s)).status = true →
      (respond (tagsListReq s)).bodyTags = some tl →
      (listByPfx s (pureHandler respond) u pfx).1
        = .ok (tl.Tags.filterMap (specTagKey pfx))) := by
  have hmain : ∀ (pfx : Str) (tags : List Str),
      extractMACs pfx tags = tags.filterMap (specTagKey pfx) := by
    intro pfx tags
    induction tags with
    | nil => rfl
    | cons t ts ih =>
      simp only [extractMACs, List.filterMap_cons, specTagKey, trimPrefixStr]
      by_cases hp : strStartsWith pfx t = true
      · simp only [hp, if_true]
        cases hd : hexDecode (t.drop pfx.length) with
        | none => simp [ih]
        | some b =>
          by_cases hb : b.length = 32
          · simp [hb, ih]
          · simp [hb, ih]
      · simp only [Bool.not_eq_true] at hp
        simp [hp, ih]
  refine ⟨hmain, ?_, ?_, ?_, ?_⟩
  · decide
  · decide
  · decide
  · intro s respond u pfx tl h2 hbody
    simp only [tagsListReq] at h2 hbody
    simp only [listByPfx, doRepo, doCall, pureHandler]
    rw [h2]
    simp only [if_true]
    rw [hbody]
    dsimp only
    rw [hmain]

/-- Tag list used by the C6 witness: the reserved tag, a conforming
packfile tag, a malformed packfile tag, and a tag of another category. -/
def tlW : tagsList :=
  ⟨str "demo",
   [str "CONFIG",
    str "packfiles-" ++ hexOfBytes (List.replicate 32 5),
    str "packfiles-zz",
    str "state-aa"]⟩

/-- Serves `tlW` for every request. -/
def respondT : Req → Resp := fun _ => { mkResp 200 with bodyTags := some tlW }

/-- Witness for C6 against `tlW`: only the conforming tag's key is
returned. -/
theorem C6_list_by_marker_witness :
    (is2xx (respondT (tagsListReq demoStore)).status = true ∧
     (respondT (tagsListReq demoStore)).bodyTags = some tlW) ∧
    (listByPfx demoStore (pureHandler respondT) () (str "packfiles-")).1
      = .ok (tlW.Tags.filterMap (specTagKey (str "packfiles-"))) ∧
    tlW.Tags.filterMap (specTagKey (str "packfiles-")) = [List.replicate 32 5] :=
  ⟨⟨by decide, by decide⟩,
   C6_list_by_marker.2.2.2.2 demoStore respondT () (str "packfiles-") tlW
     (by decide) (by decide),
   by decide⟩
